import Mathlib

/-!
# Verification of the weather scraping/cleaning/storage pipeline

Shallow embedding of the core logic of the repository:

* `scraping/clean_weather.py` — the tolerant field parsers (`clean_temperature`,
  `clean_wind`, `clean_humidity`, `parse_time`), the cleaning pipeline of `main`
  (drop duplicates → parse fields → drop all-absent rows → derive features →
  validate), and the advisory validator of Step 7.
* `scraping/store_database.py` — the SQLite-backed store (`create_database`
  schema with `UNIQUE(city, time, scraped_at)`, `insert_weather_data` with
  `INSERT OR IGNORE` and the inserted/skipped counters).
* `scraping/scrape_weather.py` — the same-day duplicate guard
  (`check_for_duplicates`) and the save path (`save_to_csv`, `main`).

Python strings are modelled as `List Char`; a missing value (`None` / pandas
`NaN`) is modelled as `Option.none`.  Python `int(...)` truncation and SQLite
semantics (NULL-distinct uniqueness, `OR IGNORE`) are modelled explicitly; the
notes on each definition record the modelling choices.
-/

namespace Weather

/-! ## Python string primitives

Models of the Python string operations used by the cleaners:
`str.replace(pat, "")`, `str.strip()`, `str.split(sep)`, `int(s)`.
-/

/-- The ASCII whitespace characters stripped by Python's `str.strip()`
(space, tab, newline, carriage return, vertical tab, form feed). -/
def isPySpace (c : Char) : Bool :=
  c = ' ' || c = '\t' || c = '\n' || c = '\r' ||
  c = Char.ofNat 11 || c = Char.ofNat 12

/-- Python `s.strip()`: remove leading and trailing whitespace. -/
def pyStrip (s : List Char) : List Char :=
  ((s.dropWhile isPySpace).reverse.dropWhile isPySpace).reverse

/-- Python `s.replace(pat, "")`: delete every (non-overlapping, leftmost-first)
occurrence of the substring `pat` from `s`.  (For an empty `pat` Python returns
`s` unchanged when the replacement is the empty string, as does this model.) -/
def removeAll (pat : List Char) : List Char → List Char
  | [] => []
  | c :: rest =>
    if h : pat ≠ [] ∧ pat.isPrefixOf (c :: rest) = true then
      removeAll pat (rest.drop (pat.length - 1))
    else
      c :: removeAll pat rest
termination_by l => l.length
decreasing_by
  · simp only [List.length_drop, List.length_cons]
    omega
  · simp only [List.length_cons]
    omega

/-- Python `s.split(sep)` for a single-character separator: split at every
occurrence of `sep`, keeping empty parts (so the result is always nonempty). -/
def splitOnChar (sep : Char) : List Char → List (List Char)
  | [] => [[]]
  | c :: rest =>
    let r := splitOnChar sep rest
    if c = sep then [] :: r
    else
      match r with
      | h :: t => (c :: h) :: t
      | [] => [[c]]

/-- Numeric value of a digit string, most significant digit first. -/
def digitsVal (l : List Char) : Nat :=
  l.foldl (fun a c => a * 10 + (c.toNat - '0'.toNat)) 0

/-- Parse a nonempty all-digit string; `none` otherwise. -/
def digitsOpt (l : List Char) : Option Nat :=
  if l ≠ [] ∧ l.all Char.isDigit then some (digitsVal l) else none

/-- Core of Python `int(s)` after whitespace stripping: an optional single
leading `-` or `+` sign followed by a nonempty run of decimal digits.
(Underscore digit grouping and non-ASCII digits, which CPython also accepts,
never occur in this pipeline's data and are not modelled.) -/
def pyIntCore (t : List Char) : Option Int :=
  match t with
  | [] => none
  | c :: rest =>
    if c = '-' then
      match digitsOpt rest with
      | some n => some (-(n : Int))
      | none => none
    else if c = '+' then
      match digitsOpt rest with
      | some n => some ((n : Int))
      | none => none
    else
      match digitsOpt (c :: rest) with
      | some n => some ((n : Int))
      | none => none

/-- Python `int(s)` on a string: strip surrounding whitespace, then parse an
optionally signed decimal integer; `none` models `ValueError`. -/
def pyInt (s : List Char) : Option Int :=
  pyIntCore (pyStrip s)

/-! ## Field parsers (`clean_weather.py`, lines 12–72) -/

/-- Why a parser produced no value.  The source reports these as distinct
diagnostic prints: nothing for a missing/blank input, "Could not parse …" for
a `ValueError`, and "Humidity out of range" for the bound violation. -/
inductive Reason where
  | missing
  | unparseable
  | outOfRange
deriving DecidableEq, Repr

/-- Result of a tolerant field parser: a value, or absence with a reason. -/
inductive CleanResult where
  | val (n : Int)
  | absent (r : Reason)
deriving DecidableEq, Repr

/-- Project a `CleanResult` to the plain optional value the pipeline stores. -/
def CleanResult.toOption : CleanResult → Option Int
  | .val n => some n
  | .absent _ => none

/-- `clean_temperature` (clean_weather.py lines 12–23): drop the input if
missing/blank, otherwise remove `"°F"` then `"°"` and strip whitespace, then
parse as `int`; a parse failure yields `None`. -/
def clean_temperature (temp : Option (List Char)) : Option Int :=
  match temp with
  | none => none
  | some s =>
    if s = [] then none
    else pyInt (pyStrip (removeAll ['°'] (removeAll ['°', 'F'] s)))

/-- `clean_wind` (clean_weather.py lines 26–43): drop the input if
missing/blank; otherwise remove `"mph"` and strip.  If a hyphen remains, split
on hyphens and return `int((int(parts[0]) + int(parts[1])) / 2)` — note that
Python's `int()` on the float mean truncates toward zero (`Int.tdiv`), it does
not round to nearest.  Otherwise parse the remainder directly.  Any
`ValueError` yields `None`.  (The float division at line 38 is exact for all
sums below 2^53, which covers every real wind speed; the model uses exact
truncated division.) -/
def clean_wind (wind : Option (List Char)) : Option Int :=
  match wind with
  | none => none
  | some s =>
    if s = [] then none
    else
      let cleaned := pyStrip (removeAll ['m', 'p', 'h'] s)
      if '-' ∈ cleaned then
        match splitOnChar '-' cleaned with
        | p0 :: p1 :: _ =>
          match pyInt p0, pyInt p1 with
          | some a, some b => some ((a + b).tdiv 2)
          | _, _ => none
        | _ => none
      else pyInt cleaned

/-- `clean_humidity` (clean_weather.py lines 46–65): drop the input if
missing/blank; otherwise remove `"%"` and strip, parse as `int`, then enforce
`0 <= value <= 100` — an out-of-range value is discarded with a distinct
"out of range" diagnostic, while a `ValueError` is "could not parse". -/
def clean_humidity (hum : Option (List Char)) : CleanResult :=
  match hum with
  | none => .absent .missing
  | some s =>
    if s = [] then .absent .missing
    else
      match pyInt (pyStrip (removeAll ['%'] s)) with
      | none => .absent .unparseable
      | some v => if 0 ≤ v ∧ v ≤ 100 then .val v else .absent .outOfRange

/-- The optional value of `clean_humidity`, as used by the pipeline. -/
def clean_humidity_opt (hum : Option (List Char)) : Option Int :=
  (clean_humidity hum).toOption

/-- `parse_time` (clean_weather.py lines 68–72): missing stays missing,
otherwise strip whitespace. -/
def parse_time (t : Option (List Char)) : Option (List Char) :=
  t.map pyStrip

/-! ## Rounding

`round(x, 1)` in Python rounds half to even.  The model works in `ℚ`; the
floats of the source are exact on all pipeline values of interest
(small integers scaled by short decimal fractions). -/

/-- Round a rational to the nearest integer, half to even (Python `round`). -/
def roundHalfEven (q : ℚ) : ℤ :=
  if q - ⌊q⌋ < 1/2 then ⌊q⌋
  else if 1/2 < q - ⌊q⌋ then ⌊q⌋ + 1
  else if ⌊q⌋ % 2 = 0 then ⌊q⌋ else ⌊q⌋ + 1

/-- Python `round(q, 1)`: round to one decimal place, half to even. -/
def pyRound1 (q : ℚ) : ℚ :=
  (roundHalfEven (q * 10) : ℚ) / 10

/-- Modelled from the spec: "rounded to the nearest integer using standard
rounding" — round half away from zero (for the nonnegative means at issue,
round half up).  Used only to compare the spec's wind-mean formula with the
source's truncation. -/
def specRoundNearest (q : ℚ) : ℤ :=
  ⌊q + 1/2⌋

/-- Modelled from the spec: the wind mean `round((a+b)/2)` the spec promises
for range text `"a-b mph"`. -/
def specWindMean (a b : ℤ) : ℤ :=
  specRoundNearest ((a + b : ℚ) / 2)

/-! ## Records and the cleaning pipeline (`clean_weather.py main`, lines 133–317) -/

/-- One row of the raw CSV (`data/raw_weather.csv`): the seven columns written
by the scraper.  A `none` field models a missing value (pandas `NaN`). -/
structure RawRec where
  city : Option (List Char)
  time : Option (List Char)
  temperature : Option (List Char)
  weather : Option (List Char)
  wind : Option (List Char)
  humidity : Option (List Char)
  scrapedAt : Option (List Char)
deriving DecidableEq, Repr

/-- One row of the cleaned frame after `main`'s steps 3–6: the pass-through
columns, the three parsed numeric columns, and the three derived columns
(`Temperature_C`, `Wind_kmh`, `Scraped_Date`), which are `none` until the
derivation step adds them. -/
structure CleanedRec where
  city : Option (List Char)
  time : Option (List Char)
  time_clean : Option (List Char)
  weather : Option (List Char)
  temperature_f : Option Int
  wind_mph : Option Int
  humidity_pct : Option Int
  temperature_c : Option ℚ
  wind_kmh : Option ℚ
  scraped_at : Option (List Char)
  scraped_date : Option (List Char)
deriving DecidableEq, Repr

/-- Step 3 (and the column drops of step 4): apply the four field cleaners to
one raw row.  Derived columns do not exist yet (`none`). -/
def cleanRecord (r : RawRec) : CleanedRec where
  city := r.city
  time := r.time
  time_clean := parse_time r.time
  weather := r.weather
  temperature_f := clean_temperature r.temperature
  wind_mph := clean_wind r.wind
  humidity_pct := clean_humidity_opt r.humidity
  temperature_c := none
  wind_kmh := none
  scraped_at := r.scrapedAt
  scraped_date := none

/-- Step 6: add the derived features.  `Temperature_C` and `Wind_kmh` map the
source's lambdas over the parsed columns (absent stays absent); the float
literal `1.60934` is exactly `160934/100000`.  `Scraped_Date` is the calendar
date component of the ISO scrape timestamp, i.e. its first ten characters
(`pd.to_datetime(...).dt.date` on the `YYYY-MM-DDTHH:MM:SS…` strings the
scraper writes). -/
def addDerived (c : CleanedRec) : CleanedRec :=
  { c with
    temperature_c := c.temperature_f.map (fun x => pyRound1 (((x : ℚ) - 32) * 5 / 9))
    wind_kmh := c.wind_mph.map (fun x => pyRound1 ((x : ℚ) * 1.60934))
    scraped_date := c.scraped_at.map (fun s => s.take 10) }

/-- A cleaned row whose three parsed numeric fields are all absent — the rows
step 5 removes (`dropna(subset=numeric_cols, how='all')`). -/
def allNumericAbsent (c : CleanedRec) : Prop :=
  c.temperature_f = none ∧ c.wind_mph = none ∧ c.humidity_pct = none

instance (c : CleanedRec) : Decidable (allNumericAbsent c) := by
  unfold allNumericAbsent; infer_instance

/-- Helper for `dropDuplicates`: keep elements not yet seen, first
occurrence wins. -/
def dropDupAux [DecidableEq α] (seen : List α) : List α → List α
  | [] => []
  | x :: xs => if x ∈ seen then dropDupAux seen xs else x :: dropDupAux (x :: seen) xs

/-- Step 2: `df.drop_duplicates()` — remove exact-duplicate rows, keeping the
first occurrence of each. -/
def dropDuplicates [DecidableEq α] (l : List α) : List α :=
  dropDupAux [] l

/-- The cleaning pipeline of `clean_weather.main` as a pure function on the
batch of raw rows: step 2 (drop duplicate rows), step 3/4 (parse fields,
drop raw text columns), step 5 (drop rows with all three numeric fields
absent), step 6 (derived features).  Step 7 (validation) is the separate
side-channel `validateStep` below and does not touch the rows. -/
def pipelineClean (l : List RawRec) : List CleanedRec :=
  (((dropDuplicates l).map cleanRecord).filter
      (fun c => decide (¬ allNumericAbsent c))).map addDerived

/-! ## Validator (`clean_weather.py main` step 7, lines 252–289) -/

/-- A validation finding, carrying the observed statistics the source
interpolates into its issue strings. -/
inductive Finding where
  | temperatureRange (lo hi : Int)
  | windHigh (hi : Int)
  | humidityInvalid (count : Nat)
deriving DecidableEq, Repr

/-- Minimum of a list of integers (`Series.min()` over the present values;
`none` for an empty/all-absent column). -/
def listMin : List Int → Option Int
  | [] => none
  | x :: xs => match listMin xs with | none => some x | some m => some (min x m)

/-- Maximum of a list of integers (`Series.max()` over the present values). -/
def listMax : List Int → Option Int
  | [] => none
  | x :: xs => match listMax xs with | none => some x | some m => some (max x m)

/-- The present Fahrenheit temperatures of a batch (pandas skips `NaN`). -/
def presentTemps (batch : List CleanedRec) : List Int :=
  batch.filterMap (·.temperature_f)

/-- Temperature check: an issue when `temp_min < -50 or temp_max > 150`
(comparisons against a `NaN` min/max of an empty column are false). -/
def tempFinding (batch : List CleanedRec) : Option Finding :=
  match listMin (presentTemps batch), listMax (presentTemps batch) with
  | some lo, some hi =>
    if lo < -50 ∨ hi > 150 then some (.temperatureRange lo hi) else none
  | _, _ => none

/-- Wind check: an issue when `wind_max > 200`. -/
def windFinding (batch : List CleanedRec) : Option Finding :=
  match listMax (batch.filterMap (·.wind_mph)) with
  | some hi => if hi > 200 then some (.windHigh hi) else none
  | none => none

/-- Humidity check: count rows with `Humidity_pct < 0` or `> 100` (absent
values compare false and are not selected). -/
def humFinding (batch : List CleanedRec) : Option Finding :=
  let n := (batch.filter (fun c =>
    match c.humidity_pct with
    | some h => decide (h < 0 ∨ h > 100)
    | none => false)).length
  if n > 0 then some (.humidityInvalid n) else none

/-- The `issues` list accumulated by step 7, in source order. -/
def findings (batch : List CleanedRec) : List Finding :=
  (tempFinding batch).toList ++ (windFinding batch).toList ++ (humFinding batch).toList

/-- Step 7 as a whole: it computes the advisory `issues` list and leaves the
data frame untouched (the source only reads `df` here and never reassigns
it), so the step maps a batch to the same batch plus findings. -/
def validateStep (batch : List CleanedRec) : List CleanedRec × List Finding :=
  (batch, findings batch)

/-! ## Store (`store_database.py`) -/

/-- The eleven caller-supplied columns of the `weather` table, in schema
order.  `none` is SQL `NULL`.  (The Python driver also binds a pandas `NaN`
as `NULL`.) -/
structure WeatherRow where
  city : Option (List Char)
  time : Option (List Char)
  time_clean : Option (List Char)
  temperature_f : Option Int
  temperature_c : Option ℚ
  weather : Option (List Char)
  wind_mph : Option Int
  wind_kmh : Option ℚ
  humidity_pct : Option Int
  scraped_at : Option (List Char)
  scraped_date : Option (List Char)
deriving DecidableEq, Repr

/-- A persisted row: the caller's columns plus the store-assigned
`id INTEGER PRIMARY KEY AUTOINCREMENT` surrogate.  (`created_at`, a
server-assigned timestamp, plays no role in any claim and is omitted.) -/
structure StoredRow where
  id : Nat
  row : WeatherRow
deriving DecidableEq, Repr

/-- The database state: the persisted rows in insertion order and the next
`AUTOINCREMENT` id. -/
structure Db where
  rows : List StoredRow
  nextId : Nat
deriving DecidableEq, Repr

/-- A freshly created database (`create_database` on a new file). -/
def emptyDb : Db :=
  ⟨[], 1⟩

/-- SQL equality on nullable values: true only when both are non-NULL and
equal.  This is how SQLite compares columns for a `UNIQUE` constraint:
"NULL values are considered distinct from all other values, including other
NULLs". -/
def sqlEq [DecidableEq α] : Option α → Option α → Bool
  | some x, some y => decide (x = y)
  | _, _ => false

/-- Does a candidate row violate `UNIQUE(city, time, scraped_at)` against an
existing stored row?  All three columns must compare equal in the SQL sense
(non-NULL on both sides). -/
def collides (r : WeatherRow) (s : StoredRow) : Bool :=
  sqlEq r.city s.row.city && sqlEq r.time s.row.time && sqlEq r.scraped_at s.row.scraped_at

/-- One `INSERT OR IGNORE INTO weather ...` (store_database.py lines 96–117).
`OR IGNORE` silently skips the row (`cursor.rowcount == 0`) when a constraint
is violated: the `NOT NULL` on `city`, or the `UNIQUE(city, time, scraped_at)`
key.  Otherwise the row is appended with the next surrogate id.  Returns the
new state and whether the row was inserted. -/
def insertRow (db : Db) (r : WeatherRow) : Db × Bool :=
  if r.city = none then (db, false)
  else if db.rows.any (collides r) then (db, false)
  else (⟨db.rows ++ [⟨db.nextId, r⟩], db.nextId + 1⟩, true)

/-- The body of the per-row loop of `insert_weather_data`: try the insert;
`rowcount > 0` increments `records_inserted`, otherwise `duplicates_skipped`
is incremented. -/
def insertStep (acc : Db × Nat × Nat) (r : WeatherRow) : Db × Nat × Nat :=
  let res := insertRow acc.1 r
  if res.2 then (res.1, acc.2.1 + 1, acc.2.2) else (res.1, acc.2.1, acc.2.2 + 1)

/-- `insert_weather_data` (store_database.py lines 71–133) in the case where
the storage medium completes every row's statement: insert the batch row by
row; returns (new state, records_inserted, duplicates_skipped).  The source's
loop has a third arm — `except Exception: continue` (lines 128–130) for a
medium failure on one row, which increments NEITHER counter; that arm is
modeled explicitly by `insert_weather_data_err` below, of which this function
is the failure-free special case (`insert_err_all_completes`). -/
def insert_weather_data (db : Db) (batch : List WeatherRow) : Db × Nat × Nat :=
  batch.foldl insertStep (db, 0, 0)

/-- What the storage medium does with one row's `cursor.execute`: either the
statement runs to completion (insert, or `OR IGNORE` skip, decided by the
data as in `insertRow`), or the medium raises an exception other than
`sqlite3.IntegrityError` — e.g. `InterfaceError` on an unbindable parameter
type such as a numpy `int64` from the CSV round-trip, or `OperationalError`
on a locked database file.  This is an input of the model: the pure embedding
takes the environment's behavior as data. -/
inductive MediumOutcome where
  | completes
  | raises
deriving DecidableEq, Repr

/-- The body of the `for` loop of `insert_weather_data` with the medium's
behavior explicit (store_database.py lines 93–130): a completed statement is
counted as inserted (`rowcount > 0`) or skipped, and an `IntegrityError`
would also be counted as skipped (lines 125–127); but any other exception is
only printed and `continue`d past (lines 128–130) — the row is dropped, the
state is unchanged, and NEITHER counter is incremented. -/
def insertStepErr (acc : Db × Nat × Nat) (a : WeatherRow × MediumOutcome) :
    Db × Nat × Nat :=
  match a.2 with
  | .completes => insertStep acc a.1
  | .raises => acc

/-- `insert_weather_data` over a batch paired with the medium's per-row
outcome: the same loop, in an environment where the write may fail on
individual rows. -/
def insert_weather_data_err (db : Db)
    (batch : List (WeatherRow × MediumOutcome)) : Db × Nat × Nat :=
  batch.foldl insertStepErr (db, 0, 0)

/-- Database states reachable from a fresh database by the pipeline's insert
operation. -/
inductive ReachableDb : Db → Prop
  | empty : ReachableDb emptyDb
  | insert (db : Db) (batch : List WeatherRow) :
      ReachableDb db → ReachableDb (insert_weather_data db batch).1

/-- The identity key of a CleanedRecord is fully present: city, time label and
scrape timestamp are all non-NULL (§3 of the spec makes all three mandatory
on a CleanedRecord). -/
def hasKeys (r : WeatherRow) : Prop :=
  r.city.isSome ∧ r.time.isSome ∧ r.scraped_at.isSome

instance (r : WeatherRow) : Decidable (hasKeys r) := by
  unfold hasKeys; infer_instance

/-- Two stored rows agree on all three identity-key fields (plain equality of
the nullable values, as the uniqueness claim reads). -/
def keyClash (s t : StoredRow) : Prop :=
  s.row.city = t.row.city ∧ s.row.time = t.row.time ∧ s.row.scraped_at = t.row.scraped_at

instance (s t : StoredRow) : Decidable (keyClash s t) := by
  unfold keyClash; infer_instance

/-- The key-uniqueness invariant that actually holds of the store: among rows
whose `time` and `scraped_at` are non-NULL, no two agree on
(city, time, scraped_at). -/
def KeysUnique (db : Db) : Prop :=
  db.rows.Pairwise (fun s t =>
    s.row.time.isSome ∧ s.row.scraped_at.isSome → ¬ keyClash s t)

/-- The full store invariant maintained by insertion: every persisted row has
a non-NULL city (the schema's `NOT NULL`), and the key-uniqueness above. -/
def StoreInv (db : Db) : Prop :=
  (∀ s ∈ db.rows, s.row.city.isSome = true) ∧ KeysUnique db

/-- The store column vector of a cleaned record, per the `column_mapping` of
`insert_weather_data`. -/
def CleanedRec.toRow (c : CleanedRec) : WeatherRow where
  city := c.city
  time := c.time
  time_clean := c.time_clean
  temperature_f := c.temperature_f
  temperature_c := c.temperature_c
  weather := c.weather
  wind_mph := c.wind_mph
  wind_kmh := c.wind_kmh
  humidity_pct := c.humidity_pct
  scraped_at := c.scraped_at
  scraped_date := c.scraped_date

/-! ## Same-day scrape guard (`scrape_weather.py`)

The `Scraped_At` cell of a stored raw row is encoded by what
`pd.to_datetime` does to it: `none` — cell missing (`NaN`, which parses to
`NaT` and never equals today); `some none` — malformed text on which
`to_datetime` raises; `some (some d)` — a timestamp whose calendar date is
`d` (dates as abstract numbers). -/

/-- One row of the raw CSV as the scraper guard sees it. -/
structure ScrapeRow where
  city : Option (List Char)
  timeText : Option (List Char)
  temperature : Option (List Char)
  weather : Option (List Char)
  wind : Option (List Char)
  humidity : Option (List Char)
  scrapedAt : Option (Option Nat)
deriving DecidableEq, Repr

/-- The raw-data file `data/raw_weather.csv` as seen by a run: missing,
present but not readable as a CSV (`pd.read_csv` raises, e.g. an empty or
corrupt file), or a table of rows that may or may not carry a `Scraped_At`
column. -/
inductive RawFile where
  | absent
  | unreadable
  | table (hasScrapedAtCol : Bool) (rows : List ScrapeRow)
deriving DecidableEq, Repr

/-- `check_for_duplicates` (scrape_weather.py lines 43–71): `False` when the
file is missing; any exception while reading or interpreting it — the read
itself failing, the `Scraped_At` column missing (`KeyError`), or
`pd.to_datetime` raising on a malformed timestamp — is caught and yields
`False`.  Otherwise `True` exactly when some existing row was scraped on
`today`'s calendar date. -/
def check_for_duplicates (file : RawFile) (today : Nat) : Bool :=
  match file with
  | .absent => false
  | .unreadable => false
  | .table hasCol rows =>
    if rows.length > 0 then
      if hasCol then
        if rows.any (fun r => r.scrapedAt = some none) then false
        else rows.any (fun r => r.scrapedAt = some (some today))
      else false
    else false

/-- `save_to_csv` (scrape_weather.py lines 152–170): create the file from the
new rows when absent; otherwise re-read the existing file — a read failure
here is NOT caught and aborts the run (`.error`) — and append the new rows.
When the old table lacked a `Scraped_At` column, the concatenated frame gains
it from the new rows and the old rows hold `NaN` there. -/
def save_to_csv (file : RawFile) (newRows : List ScrapeRow) : Except Unit RawFile :=
  match file with
  | .absent => .ok (.table true newRows)
  | .unreadable => .error ()
  | .table hasCol rows =>
    let rows' := if hasCol then rows else rows.map (fun r => { r with scrapedAt := none })
    .ok (.table true (rows' ++ newRows))

/-- The save decision of `scrape_weather.main` (lines 196–208): skip the
entire batch when `check_for_duplicates` reports a same-day scrape, otherwise
save (append) it.  `.error` models the run dying on an uncaught exception,
leaving the file as it was. -/
def scrapeMainSave (file : RawFile) (newBatch : List ScrapeRow) (today : Nat) :
    Except Unit RawFile :=
  if check_for_duplicates file today then .ok file else save_to_csv file newBatch

/-! ## Sample data

Concrete rows used to instantiate the theorems (the witnesses evaluate the
pipeline on them). -/

/-- A well-formed scraped row, as in the spec's end-to-end scenario. -/
def sampleRaw : RawRec where
  city := some "Washington, DC".data
  time := some "1 pm".data
  temperature := some "72°F".data
  weather := some "Sunny".data
  wind := some "8 mph".data
  humidity := some "55%".data
  scrapedAt := some "2024-01-01T08:00:00".data

/-- A raw row none of whose three numeric fields parses. -/
def sampleJunk : RawRec where
  city := some "Washington, DC".data
  time := some "2 pm".data
  temperature := some "n/a".data
  weather := some "Sunny".data
  wind := none
  humidity := some "".data
  scrapedAt := some "2024-01-01T08:00:00".data

/-- A cleaned row carrying the implausible temperature −60 °F. -/
def sampleCold : CleanedRec where
  city := some "Washington, DC".data
  time := some "3 pm".data
  time_clean := some "3 pm".data
  weather := some "Clear".data
  temperature_f := some (-60)
  wind_mph := some 8
  humidity_pct := some 55
  temperature_c := none
  wind_kmh := none
  scraped_at := some "2024-01-01T08:00:00".data
  scraped_date := none

/-- A store row with all three identity-key fields present.  (The rational
derived columns are left NULL so that witnesses stay kernel-evaluable; the
store logic never reads them.) -/
def sampleRow : WeatherRow where
  city := some "Washington, DC".data
  time := some "1 pm".data
  time_clean := some "1 pm".data
  temperature_f := some 72
  temperature_c := none
  weather := some "Sunny".data
  wind_mph := some 8
  wind_kmh := none
  humidity_pct := some 55
  scraped_at := some "2024-01-01T08:00:00".data
  scraped_date := some "2024-01-01".data

/-- A store row whose `time` is NULL (e.g. a cleaned CSV whose `Time` cell
was empty: pandas reads it as `NaN` and the driver binds it as SQL NULL). -/
def nullTimeRow : WeatherRow :=
  { sampleRow with time := none }

/-- A raw-store row scraped on (abstract) day 7. -/
def sampleScrape : ScrapeRow where
  city := some "Washington, DC".data
  timeText := some "1 pm".data
  temperature := some "72°F".data
  weather := some "Sunny".data
  wind := some "8 mph".data
  humidity := some "55%".data
  scrapedAt := some (some 7)

/-- A raw-store row whose `Scraped_At` text does not parse as a timestamp. -/
def malformedScrape : ScrapeRow :=
  { sampleScrape with scrapedAt := some none }

/-! ## String lemmas -/

theorem digit_ne (c k : Char) (h : c.isDigit = true) (hk : k.isDigit = false) : c ≠ k := by
  intro hck
  rw [hck, hk] at h
  exact Bool.noConfusion h

theorem isPySpace_eq_false_of_isDigit (c : Char) (h : c.isDigit = true) :
    isPySpace c = false := by
  by_contra hne
  have hsp : isPySpace c = true := by
    cases hx : isPySpace c
    · exact absurd hx hne
    · rfl
  simp only [isPySpace, Bool.or_eq_true, decide_eq_true_eq] at hsp
  rcases hsp with ((((h1 | h2) | h3) | h4) | h5) | h6 <;> subst_vars <;> simp_all

theorem removeAll_cons_ne (p : Char) (ps : List Char) (c : Char) (l : List Char)
    (h : c ≠ p) : removeAll (p :: ps) (c :: l) = c :: removeAll (p :: ps) l := by
  rw [removeAll]
  rw [dif_neg]
  intro hcon
  have hpre := hcon.2
  simp only [List.isPrefixOf, Bool.and_eq_true, beq_iff_eq] at hpre
  exact h hpre.1.symm

theorem removeAll_append_ne (p : Char) (ps : List Char) (l r : List Char)
    (h : ∀ c ∈ l, c ≠ p) :
    removeAll (p :: ps) (l ++ r) = l ++ removeAll (p :: ps) r := by
  induction l with
  | nil => simp
  | cons c t ih =>
    rw [List.cons_append, removeAll_cons_ne p ps c (t ++ r) (h c (by simp)),
      ih (fun x hx => h x (by simp [hx]))]
    rfl

theorem dropWhile_eq_self_of_no_space (l : List Char)
    (h : ∀ c ∈ l, isPySpace c = false) : l.dropWhile isPySpace = l := by
  cases l with
  | nil => rfl
  | cons c t => simp [List.dropWhile_cons, h c (by simp)]

theorem pyStrip_no_space (l : List Char) (h : ∀ c ∈ l, isPySpace c = false) :
    pyStrip l = l := by
  unfold pyStrip
  rw [dropWhile_eq_self_of_no_space l h,
    dropWhile_eq_self_of_no_space l.reverse (fun c hc => h c (List.mem_reverse.mp hc)),
    List.reverse_reverse]

theorem pyStrip_trailing_space (l : List Char) (hne : l ≠ [])
    (h : ∀ c ∈ l, isPySpace c = false) : pyStrip (l ++ [' ']) = l := by
  unfold pyStrip
  have h1 : (l ++ [' ']).dropWhile isPySpace = l ++ [' '] := by
    obtain ⟨c, t, rfl⟩ := List.exists_cons_of_ne_nil hne
    rw [List.cons_append, List.dropWhile_cons, if_neg (by simp [h c (by simp)])]
  have h2 : (l ++ [' ']).reverse = ' ' :: l.reverse := by simp
  rw [h1, h2, List.dropWhile_cons, if_pos (by decide),
    dropWhile_eq_self_of_no_space _ (fun c hc => h c (List.mem_reverse.mp hc)),
    List.reverse_reverse]

theorem splitOnChar_ne_nil (sep : Char) (l : List Char) : splitOnChar sep l ≠ [] := by
  induction l with
  | nil => simp [splitOnChar]
  | cons c t ih =>
    simp only [splitOnChar]
    by_cases hc : c = sep
    · simp [hc]
    · simp only [if_neg hc]
      cases hx : splitOnChar sep t with
      | nil => exact absurd hx ih
      | cons a b => simp

theorem splitOnChar_not_mem (sep : Char) (l : List Char) (h : sep ∉ l) :
    splitOnChar sep l = [l] := by
  induction l with
  | nil => rfl
  | cons c t ih =>
    have hc : c ≠ sep := fun hcc => h (by simp [hcc])
    have ht := ih (fun hm => h (by simp [hm]))
    simp only [splitOnChar, if_neg hc, ht]

theorem splitOnChar_append (sep : Char) (l r : List Char) (h : sep ∉ l) :
    splitOnChar sep (l ++ sep :: r) = l :: splitOnChar sep r := by
  induction l with
  | nil => simp [splitOnChar]
  | cons c t ih =>
    have hc : c ≠ sep := fun hcc => h (by simp [hcc])
    have ht := ih (fun hm => h (by simp [hm]))
    simp only [List.cons_append, splitOnChar, if_neg hc, List.append_eq, ht]

theorem digitsOpt_all_digits (l : List Char) (h1 : l ≠ [])
    (h2 : ∀ c ∈ l, c.isDigit = true) : digitsOpt l = some (digitsVal l) := by
  unfold digitsOpt
  rw [if_pos ⟨h1, List.all_eq_true.mpr h2⟩]

theorem pyInt_digits (l : List Char) (h1 : l ≠ []) (h2 : ∀ c ∈ l, c.isDigit = true) :
    pyInt l = some ((digitsVal l : Int)) := by
  unfold pyInt
  rw [pyStrip_no_space l (fun c hc => isPySpace_eq_false_of_isDigit c (h2 c hc))]
  obtain ⟨c, t, rfl⟩ := List.exists_cons_of_ne_nil h1
  have hcd := h2 c (by simp)
  simp only [pyIntCore, if_neg (digit_ne c '-' hcd (by decide)),
    if_neg (digit_ne c '+' hcd (by decide)), digitsOpt_all_digits _ h1 h2]

theorem pyInt_neg_digits (l : List Char) (h1 : l ≠ [])
    (h2 : ∀ c ∈ l, c.isDigit = true) :
    pyInt ('-' :: l) = some (-(digitsVal l : Int)) := by
  unfold pyInt
  have hns : ∀ c ∈ '-' :: l, isPySpace c = false := by
    intro c hc
    rcases List.mem_cons.mp hc with rfl | hc
    · decide
    · exact isPySpace_eq_false_of_isDigit c (h2 c hc)
  rw [pyStrip_no_space _ hns]
  simp [pyIntCore, digitsOpt_all_digits _ h1 h2]

/-! ## C3 — wind range parsing -/

/-- C3 (counterexample): the claim "the wind parser returns the arithmetic
mean (a+b)/2 rounded to the nearest integer using standard rounding" is false
at the input `"11-12 mph"`: the source computes `int((11 + 12) / 2)`, which
truncates 11.5 to 11, while rounding to the nearest integer gives 12. -/
theorem clean_wind_range_not_rounded :
    clean_wind (some ['1', '1', '-', '1', '2', ' ', 'm', 'p', 'h']) = some 11 ∧
    specWindMean 11 12 = 12 ∧
    clean_wind (some ['1', '1', '-', '1', '2', ' ', 'm', 'p', 'h']) ≠
      some (specWindMean 11 12) := by
  have e : clean_wind (some ['1', '1', '-', '1', '2', ' ', 'm', 'p', 'h']) = some 11 := by
    simp [clean_wind, removeAll, pyStrip, pyInt, pyIntCore, digitsOpt, digitsVal,
      splitOnChar, isPySpace, List.isPrefixOf]
    decide
  have s : specWindMean 11 12 = 12 := by norm_num [specWindMean, specRoundNearest]
  exact ⟨e, s, by rw [e, s]; decide⟩

/-- C3 (amended): for every wind text of the form `"a-b mph"` with integer
(digit-string) bounds a and b, the wind parser returns the arithmetic mean
(a+b)/2 truncated to an integer (floor, for these nonnegative bounds), not
rounded to nearest; in particular `"10-14 mph"` still parses to 12. -/
theorem clean_wind_range_mean_truncated (ds es : List Char) (h1 : ds ≠ []) (h2 : es ≠ [])
    (h3 : ∀ c ∈ ds, c.isDigit = true) (h4 : ∀ c ∈ es, c.isDigit = true) :
    clean_wind (some (ds ++ '-' :: (es ++ [' ', 'm', 'p', 'h']))) =
      some (((digitsVal ds + digitsVal es) / 2 : Nat)) := by
  have hshape : ds ++ '-' :: (es ++ [' ', 'm', 'p', 'h']) =
      (ds ++ '-' :: es) ++ [' ', 'm', 'p', 'h'] := by
    simp
  have hlm : ∀ c ∈ ds ++ '-' :: es, c ≠ 'm' := by
    intro c hc
    rcases List.mem_append.mp hc with hd | he
    · exact digit_ne c 'm' (h3 c hd) (by decide)
    · rcases List.mem_cons.mp he with rfl | he
      · decide
      · exact digit_ne c 'm' (h4 c he) (by decide)
  have hne : ds ++ '-' :: es ≠ [] := by
    intro hx
    exact h1 (List.append_eq_nil.mp hx).1
  have e1 : removeAll ['m', 'p', 'h'] [' ', 'm', 'p', 'h'] = [' '] := by
    simp [removeAll]
  have e2 : removeAll ['m', 'p', 'h'] (ds ++ '-' :: (es ++ [' ', 'm', 'p', 'h'])) =
      (ds ++ '-' :: es) ++ [' '] := by
    rw [hshape, removeAll_append_ne 'm' ['p', 'h'] _ _ hlm, e1]
  have hnsp : ∀ c ∈ ds ++ '-' :: es, isPySpace c = false := by
    intro c hc
    rcases List.mem_append.mp hc with hd | he
    · exact isPySpace_eq_false_of_isDigit c (h3 c hd)
    · rcases List.mem_cons.mp he with rfl | he
      · decide
      · exact isPySpace_eq_false_of_isDigit c (h4 c he)
  have e3 : pyStrip ((ds ++ '-' :: es) ++ [' ']) = ds ++ '-' :: es :=
    pyStrip_trailing_space _ hne hnsp
  have hmem : '-' ∈ ds ++ '-' :: es := by simp
  have hd : '-' ∉ ds := fun hx => absurd rfl (digit_ne '-' '-' (h3 '-' hx) (by decide))
  have he : '-' ∉ es := fun hx => absurd rfl (digit_ne '-' '-' (h4 '-' hx) (by decide))
  have e4 : splitOnChar '-' (ds ++ '-' :: es) = [ds, es] := by
    rw [splitOnChar_append '-' ds es hd, splitOnChar_not_mem '-' es he]
  have hsne : ds ++ '-' :: (es ++ [' ', 'm', 'p', 'h']) ≠ [] := by
    intro hx
    exact h1 (List.append_eq_nil.mp hx).1
  simp only [clean_wind, if_neg hsne, e2, e3, if_pos hmem, e4,
    pyInt_digits ds h1 h3, pyInt_digits es h2 h4]
  rw [← Nat.cast_add]
  rfl

/-- C3 (witness): the amended theorem applied at `"11-12 mph"`, where the
truncated mean evaluates to 11. -/
theorem clean_wind_range_mean_truncated_witness :
    clean_wind (some (['1', '1'] ++ '-' :: (['1', '2'] ++ [' ', 'm', 'p', 'h']))) =
      some (((digitsVal ['1', '1'] + digitsVal ['1', '2']) / 2 : Nat)) ∧
    (((digitsVal ['1', '1'] + digitsVal ['1', '2']) / 2 : Nat) : Int) = 11 :=
  ⟨clean_wind_range_mean_truncated ['1', '1'] ['1', '2'] (by decide) (by decide)
      (by decide) (by decide),
    by decide⟩

/-! ## C5 — humidity parsing and range enforcement -/

/-- C5: parsing the humidity text `"<h>%"` (h an optionally negated digit
string) returns h when 0 ≤ h ≤ 100 and otherwise absence with the distinct
"out of range" reason; missing and blank input give absence with no parse
attempt, non-numeric input gives absence with the "unparseable" reason, and
the two failure reasons are distinct.  (The parser is a total function, so it
never raises to the caller.) -/
theorem clean_humidity_range_check (neg : Bool) (ds : List Char) (h1 : ds ≠ [])
    (h2 : ∀ c ∈ ds, c.isDigit = true) :
    (clean_humidity (some ((if neg then '-' :: ds else ds) ++ ['%'])) =
      if 0 ≤ (if neg then -(digitsVal ds : Int) else (digitsVal ds : Int)) ∧
          (if neg then -(digitsVal ds : Int) else (digitsVal ds : Int)) ≤ 100
      then .val (if neg then -(digitsVal ds : Int) else (digitsVal ds : Int))
      else .absent .outOfRange) ∧
    clean_humidity none = .absent .missing ∧
    clean_humidity (some []) = .absent .missing ∧
    clean_humidity (some ['N', '/', 'A']) = .absent .unparseable ∧
    Reason.outOfRange ≠ Reason.unparseable := by
  refine ⟨?_, rfl, by simp [clean_humidity],
    by simp [clean_humidity, removeAll, pyStrip, pyInt, pyIntCore, digitsOpt,
      isPySpace, List.isPrefixOf], by decide⟩
  · have hlp : ∀ c ∈ (if neg then '-' :: ds else ds), c ≠ '%' := by
      intro c hc
      cases neg with
      | false =>
        simp only [if_neg Bool.false_ne_true] at hc
        exact digit_ne c '%' (h2 c hc) (by decide)
      | true =>
        simp only [if_pos rfl] at hc
        rcases List.mem_cons.mp hc with rfl | hc
        · decide
        · exact digit_ne c '%' (h2 c hc) (by decide)
    have hlne : (if neg then '-' :: ds else ds) ≠ [] := by
      cases neg <;> simp [h1]
    have e0 : removeAll ['%'] ['%'] = [] := by simp [removeAll]
    have e1 : removeAll ['%'] ((if neg then '-' :: ds else ds) ++ ['%']) =
        (if neg then '-' :: ds else ds) := by
      rw [removeAll_append_ne '%' [] _ _ hlp, e0, List.append_nil]
    have hnsp : ∀ c ∈ (if neg then '-' :: ds else ds), isPySpace c = false := by
      intro c hc
      cases neg with
      | false =>
        simp only [if_neg Bool.false_ne_true] at hc
        exact isPySpace_eq_false_of_isDigit c (h2 c hc)
      | true =>
        simp only [if_pos rfl] at hc
        rcases List.mem_cons.mp hc with rfl | hc
        · decide
        · exact isPySpace_eq_false_of_isDigit c (h2 c hc)
    have e2 : pyStrip (if neg then '-' :: ds else ds) = (if neg then '-' :: ds else ds) :=
      pyStrip_no_space _ hnsp
    have hine : (if neg then '-' :: ds else ds) ++ ['%'] ≠ [] := by
      cases neg <;> simp
    have e3 : pyInt (if neg then '-' :: ds else ds) =
        some (if neg then -(digitsVal ds : Int) else (digitsVal ds : Int)) := by
      cases neg with
      | false => simpa using pyInt_digits ds h1 h2
      | true => simpa using pyInt_neg_digits ds h1 h2
    simp only [clean_humidity, if_neg hine, e1, e2, e3]

/-- C5 (witness): the theorem applied at `"105%"`, which is parsed as 105,
found out of the [0,100] range, and discarded with the out-of-range reason. -/
theorem clean_humidity_range_check_witness :
    (clean_humidity (some ((if false then '-' :: ['1', '0', '5'] else ['1', '0', '5']) ++ ['%'])) =
      if 0 ≤ (if false then -(digitsVal ['1', '0', '5'] : Int) else (digitsVal ['1', '0', '5'] : Int)) ∧
          (if false then -(digitsVal ['1', '0', '5'] : Int) else (digitsVal ['1', '0', '5'] : Int)) ≤ 100
      then .val (if false then -(digitsVal ['1', '0', '5'] : Int) else (digitsVal ['1', '0', '5'] : Int))
      else .absent .outOfRange) ∧
    clean_humidity none = .absent .missing ∧
    clean_humidity (some []) = .absent .missing ∧
    clean_humidity (some ['N', '/', 'A']) = .absent .unparseable ∧
    Reason.outOfRange ≠ Reason.unparseable :=
  clean_humidity_range_check false ['1', '0', '5'] (by decide) (by decide)

/-! ## Pipeline lemmas -/

theorem mem_dropDupAux [DecidableEq α] (l : List α) :
    ∀ (seen : List α) (x : α), x ∈ dropDupAux seen l ↔ x ∈ l ∧ x ∉ seen := by
  induction l with
  | nil => intro seen x; simp [dropDupAux]
  | cons y ys ih =>
    intro seen x
    by_cases hy : y ∈ seen
    · rw [dropDupAux, if_pos hy, ih seen x]
      constructor
      · rintro ⟨hx, hs⟩
        exact ⟨List.mem_cons_of_mem y hx, hs⟩
      · rintro ⟨hx, hs⟩
        rcases List.mem_cons.mp hx with rfl | hx
        · exact absurd hy hs
        · exact ⟨hx, hs⟩
    · rw [dropDupAux, if_neg hy]
      constructor
      · intro hx
        rcases List.mem_cons.mp hx with rfl | hx
        · exact ⟨List.mem_cons_self x ys, hy⟩
        · obtain ⟨h1, h2⟩ := (ih (y :: seen) x).mp hx
          exact ⟨List.mem_cons_of_mem y h1, fun hs => h2 (List.mem_cons_of_mem y hs)⟩
      · rintro ⟨hx, hs⟩
        rcases List.mem_cons.mp hx with rfl | hx
        · exact List.mem_cons_self x _
        · by_cases hxy : x = y
          · subst hxy; exact List.mem_cons_self x _
          · exact List.mem_cons_of_mem y ((ih (y :: seen) x).mpr
              ⟨hx, fun hm => by
                rcases List.mem_cons.mp hm with h | h
                · exact hxy h
                · exact hs h⟩)

theorem mem_dropDuplicates [DecidableEq α] (l : List α) (x : α) :
    x ∈ dropDuplicates l ↔ x ∈ l := by
  rw [dropDuplicates, mem_dropDupAux]
  simp

theorem addDerived_temperature_f (c : CleanedRec) :
    (addDerived c).temperature_f = c.temperature_f := rfl

theorem addDerived_wind_mph (c : CleanedRec) :
    (addDerived c).wind_mph = c.wind_mph := rfl

theorem addDerived_humidity_pct (c : CleanedRec) :
    (addDerived c).humidity_pct = c.humidity_pct := rfl

theorem addDerived_temperature_c (c : CleanedRec) :
    (addDerived c).temperature_c =
      c.temperature_f.map (fun x => pyRound1 (((x : ℚ) - 32) * 5 / 9)) := rfl

theorem addDerived_wind_kmh (c : CleanedRec) :
    (addDerived c).wind_kmh = c.wind_mph.map (fun x => pyRound1 ((x : ℚ) * 1.60934)) := rfl

/-! ## C6 — all-absent rows are dropped, everything else is retained -/

/-- C6: in any batch, a record whose three parsed numeric fields are all
absent is dropped by step 5 and never reaches storage, while a record with
at least one present numeric field is retained (with exactly its parsed field
values); the fate of each record depends only on its own fields, so the other
records of the batch are unaffected. -/
theorem pipeline_keeps_iff_some_numeric (l : List RawRec) (r : RawRec) (h : r ∈ l) :
    (allNumericAbsent (cleanRecord r) → addDerived (cleanRecord r) ∉ pipelineClean l) ∧
    (¬ allNumericAbsent (cleanRecord r) → addDerived (cleanRecord r) ∈ pipelineClean l) := by
  constructor
  · intro habs hmem
    obtain ⟨c₀, hc₀, heq⟩ := List.mem_map.mp hmem
    have hfil := List.mem_filter.mp hc₀
    have hnabs : ¬ allNumericAbsent c₀ := by simpa using hfil.2
    apply hnabs
    have ht : c₀.temperature_f = (cleanRecord r).temperature_f := by
      have hx := congrArg CleanedRec.temperature_f heq
      simpa [addDerived_temperature_f] using hx
    have hw : c₀.wind_mph = (cleanRecord r).wind_mph := by
      have hx := congrArg CleanedRec.wind_mph heq
      simpa [addDerived_wind_mph] using hx
    have hh : c₀.humidity_pct = (cleanRecord r).humidity_pct := by
      have hx := congrArg CleanedRec.humidity_pct heq
      simpa [addDerived_humidity_pct] using hx
    exact ⟨ht.trans habs.1, hw.trans habs.2.1, hh.trans habs.2.2⟩
  · intro hnabs
    refine List.mem_map.mpr ⟨cleanRecord r, ?_, rfl⟩
    refine List.mem_filter.mpr ⟨?_, by simpa⟩
    exact List.mem_map.mpr ⟨r, (mem_dropDuplicates l r).mpr h, rfl⟩

/-- C6 (witness): in the two-row batch [sampleRaw, sampleJunk], the fully
unparseable row is dropped and the valid row is retained. -/
theorem pipeline_keeps_iff_some_numeric_witness :
    addDerived (cleanRecord sampleRaw) ∈ pipelineClean [sampleRaw, sampleJunk] ∧
    addDerived (cleanRecord sampleJunk) ∉ pipelineClean [sampleRaw, sampleJunk] := by
  constructor
  · refine (pipeline_keeps_iff_some_numeric [sampleRaw, sampleJunk] sampleRaw (by simp)).2 ?_
    intro habs
    have := habs.1
    simp [cleanRecord, sampleRaw, clean_temperature, removeAll, pyStrip, pyInt,
      pyIntCore, digitsOpt, digitsVal, isPySpace, List.isPrefixOf] at this
  · refine (pipeline_keeps_iff_some_numeric [sampleRaw, sampleJunk] sampleJunk (by simp)).1 ?_
    refine ⟨?_, rfl, ?_⟩
    · simp [cleanRecord, sampleJunk, clean_temperature, removeAll, pyStrip, pyInt,
        pyIntCore, digitsOpt, digitsVal, isPySpace, List.isPrefixOf]
    · simp [cleanRecord, sampleJunk, clean_humidity_opt, clean_humidity,
        CleanResult.toOption, removeAll, pyStrip, pyInt, pyIntCore, digitsOpt,
        digitsVal, isPySpace, List.isPrefixOf]

/-! ## C7 — Fahrenheit/Celsius consistency -/

/-- C7: every record the pipeline produces has consistent temperature fields:
when Fahrenheit F is present, Celsius is `round((F − 32) * 5/9, 1)`, and
Celsius is absent exactly when Fahrenheit is absent (absence propagates,
never replaced by zero or a sentinel). -/
theorem pipeline_celsius_consistent (l : List RawRec) (c : CleanedRec)
    (h : c ∈ pipelineClean l) :
    (∀ F : Int, c.temperature_f = some F →
      c.temperature_c = some (pyRound1 (((F : ℚ) - 32) * 5 / 9))) ∧
    (c.temperature_c = none ↔ c.temperature_f = none) := by
  obtain ⟨c₀, _, rfl⟩ := List.mem_map.mp h
  constructor
  · intro F hF
    rw [addDerived_temperature_f] at hF
    rw [addDerived_temperature_c, hF]
    rfl
  · rw [addDerived_temperature_c, addDerived_temperature_f]
    cases c₀.temperature_f <;> simp

/-- C7 (witness): the theorem applied to the one record the pipeline produces
from [sampleRaw]; its Fahrenheit 72 yields Celsius round((72−32)·5/9, 1). -/
theorem pipeline_celsius_consistent_witness :
    (addDerived (cleanRecord sampleRaw)).temperature_c =
      some (pyRound1 ((((72 : Int) : ℚ) - 32) * 5 / 9)) := by
  have hmem : addDerived (cleanRecord sampleRaw) ∈ pipelineClean [sampleRaw] := by
    refine (pipeline_keeps_iff_some_numeric [sampleRaw] sampleRaw (by simp)).2 ?_
    intro habs
    have := habs.1
    simp [cleanRecord, sampleRaw, clean_temperature, removeAll, pyStrip, pyInt,
      pyIntCore, digitsOpt, digitsVal, isPySpace, List.isPrefixOf] at this
  refine (pipeline_celsius_consistent [sampleRaw] _ hmem).1 72 ?_
  rw [addDerived_temperature_f]
  simp [cleanRecord, sampleRaw, clean_temperature, removeAll, pyStrip, pyInt,
    pyIntCore, digitsOpt, digitsVal, isPySpace, List.isPrefixOf]

/-! ## C8 — validation is advisory -/

theorem listMin_le_of_mem (a : Int) (xs : List Int) (h : a ∈ xs) :
    ∃ m, listMin xs = some m ∧ m ≤ a := by
  induction xs with
  | nil => cases h
  | cons x t ih =>
    rcases List.mem_cons.mp h with rfl | ht
    · cases hx : listMin t with
      | none => exact ⟨a, by simp [listMin, hx], le_refl a⟩
      | some m => exact ⟨min a m, by simp [listMin, hx], min_le_left a m⟩
    · obtain ⟨m, hm, hle⟩ := ih ht
      exact ⟨min x m, by simp [listMin, hm], le_trans (min_le_right x m) hle⟩

theorem listMax_ge_of_mem (a : Int) (xs : List Int) (h : a ∈ xs) :
    ∃ m, listMax xs = some m ∧ a ≤ m := by
  induction xs with
  | nil => cases h
  | cons x t ih =>
    rcases List.mem_cons.mp h with rfl | ht
    · cases hx : listMax t with
      | none => exact ⟨a, by simp [listMax, hx], le_refl a⟩
      | some m => exact ⟨max a m, by simp [listMax, hx], le_max_left a m⟩
    · obtain ⟨m, hm, hle⟩ := ih ht
      exact ⟨max x m, by simp [listMax, hm], le_trans hle (le_max_right x m)⟩

theorem tempFinding_of_low (batch : List CleanedRec)
    (hmem : (-60 : Int) ∈ presentTemps batch) :
    ∃ lo hi, tempFinding batch = some (.temperatureRange lo hi) ∧ lo ≤ -60 := by
  obtain ⟨lo, hlo, hle⟩ := listMin_le_of_mem _ _ hmem
  obtain ⟨hi, hhi, _⟩ := listMax_ge_of_mem _ _ hmem
  refine ⟨lo, hi, ?_, hle⟩
  rw [tempFinding, hlo, hhi]
  show (if lo < -50 ∨ hi > 150 then some (Finding.temperatureRange lo hi) else none) = _
  rw [if_pos (Or.inl (by omega))]

/-- C8: the Validator only appends findings to an advisory list and never
removes or modifies any record or field — the record list after validation is
the very batch that went in; in particular a record with temperature −60 °F
produces a temperature-range finding and is still present, unchanged, with
`temperature_f = −60`. -/
theorem validator_advisory (batch : List CleanedRec) :
    (validateStep batch).1 = batch ∧
    ∀ r ∈ batch, r.temperature_f = some (-60) →
      (∃ lo hi, Finding.temperatureRange lo hi ∈ (validateStep batch).2 ∧ lo ≤ -60) ∧
      r ∈ (validateStep batch).1 ∧ r.temperature_f = some (-60) := by
  refine ⟨rfl, ?_⟩
  intro r hr htemp
  have hmem : (-60 : Int) ∈ presentTemps batch :=
    List.mem_filterMap.mpr ⟨r, hr, htemp⟩
  obtain ⟨lo, hi, hf, hle⟩ := tempFinding_of_low batch hmem
  refine ⟨⟨lo, hi, ?_, hle⟩, hr, htemp⟩
  show _ ∈ findings batch
  rw [findings, hf]
  simp

/-- C8 (witness): the theorem applied to the batch [sampleCold]: a finding is
reported and the −60 record is still in the validated batch. -/
theorem validator_advisory_witness :
    (∃ lo hi, Finding.temperatureRange lo hi ∈ (validateStep [sampleCold]).2 ∧ lo ≤ -60) ∧
    sampleCold ∈ (validateStep [sampleCold]).1 ∧
    sampleCold.temperature_f = some (-60) :=
  (validator_advisory [sampleCold]).2 sampleCold (by simp) rfl

/-! ## Store lemmas -/

theorem insertStep_fst (acc : Db × Nat × Nat) (r : WeatherRow) :
    (insertStep acc r).1 = (insertRow acc.1 r).1 := by
  cases h : (insertRow acc.1 r).2 <;> simp [insertStep, h]

theorem foldl_insertStep_shift (batch : List WeatherRow) :
    ∀ (db : Db) (i d : Nat),
      batch.foldl insertStep (db, i, d) =
        ((batch.foldl insertStep (db, 0, 0)).1,
          i + (batch.foldl insertStep (db, 0, 0)).2.1,
          d + (batch.foldl insertStep (db, 0, 0)).2.2) := by
  induction batch with
  | nil => intro db i d; simp
  | cons r rs ih =>
    intro db i d
    rw [List.foldl_cons, List.foldl_cons]
    cases hres : (insertRow db r).2 with
    | false =>
      have h1 : insertStep (db, i, d) r = ((insertRow db r).1, i, d + 1) := by
        simp [insertStep, hres]
      have h2 : insertStep (db, 0, 0) r = ((insertRow db r).1, 0, 1) := by
        simp [insertStep, hres]
      rw [h1, h2, ih ((insertRow db r).1) i (d + 1), ih ((insertRow db r).1) 0 1]
      simp only [Prod.mk.injEq, eq_self_iff_true, true_and, and_true]
      omega
    | true =>
      have h1 : insertStep (db, i, d) r = ((insertRow db r).1, i + 1, d) := by
        simp [insertStep, hres]
      have h2 : insertStep (db, 0, 0) r = ((insertRow db r).1, 1, 0) := by
        simp [insertStep, hres]
      rw [h1, h2, ih ((insertRow db r).1) (i + 1) d, ih ((insertRow db r).1) 1 0]
      simp only [Prod.mk.injEq, eq_self_iff_true, true_and, and_true]
      omega

theorem sqlEq_self {α : Type} [DecidableEq α] (a : Option α) (h : a.isSome = true) :
    sqlEq a a = true := by
  cases a with
  | none => simp at h
  | some x => simp [sqlEq]

theorem sqlEq_of_eq {α : Type} [DecidableEq α] (a b : Option α) (hab : a = b)
    (hb : b.isSome = true) : sqlEq a b = true := by
  subst hab
  exact sqlEq_self a hb

theorem insertRow_skips_present (db : Db) (r : WeatherRow) (h : hasKeys r)
    (hmem : ∃ s ∈ db.rows, s.row = r) : insertRow db r = (db, false) := by
  unfold hasKeys at h
  obtain ⟨s, hs, hsr⟩ := hmem
  have hcne : ¬ r.city = none := by
    intro hnone
    rw [hnone] at h
    exact absurd h.1 (by simp)
  have hcol : collides r s = true := by
    rw [collides, hsr]
    simp [sqlEq_self _ h.1, sqlEq_self _ h.2.1, sqlEq_self _ h.2.2]
  have hany : db.rows.any (collides r) = true := List.any_eq_true.mpr ⟨s, hs, hcol⟩
  rw [insertRow, if_neg hcne, if_pos hany]

/-! ## C4 — the counters against the medium-failure arm -/

/-- Over the failure-free loop (`insert_weather_data`), every row is counted
by exactly one of the two counters, so they sum to the batch size; and the
fold is compositional — a suffix of the batch is processed from the state the
prefix left, so no row's outcome aborts the processing of the remaining
rows. -/
theorem insert_counters_partition (db : Db) (batch xs ys : List WeatherRow) :
    ((insert_weather_data db batch).2.1 + (insert_weather_data db batch).2.2 =
      batch.length) ∧
    (insert_weather_data db (xs ++ ys) =
      ((insert_weather_data (insert_weather_data db xs).1 ys).1,
        (insert_weather_data db xs).2.1 +
          (insert_weather_data (insert_weather_data db xs).1 ys).2.1,
        (insert_weather_data db xs).2.2 +
          (insert_weather_data (insert_weather_data db xs).1 ys).2.2)) := by
  constructor
  · induction batch generalizing db with
    | nil => rfl
    | cons r rs ih =>
      rw [insert_weather_data, List.foldl_cons]
      cases hres : (insertRow db r).2 with
      | false =>
        have h1 : insertStep (db, 0, 0) r = ((insertRow db r).1, 0, 1) := by
          simp [insertStep, hres]
        rw [h1, foldl_insertStep_shift rs ((insertRow db r).1) 0 1]
        have hs := ih ((insertRow db r).1)
        rw [insert_weather_data] at hs
        simp only [List.length_cons]
        omega
      | true =>
        have h1 : insertStep (db, 0, 0) r = ((insertRow db r).1, 1, 0) := by
          simp [insertStep, hres]
        rw [h1, foldl_insertStep_shift rs ((insertRow db r).1) 1 0]
        have hs := ih ((insertRow db r).1)
        rw [insert_weather_data] at hs
        simp only [List.length_cons]
        omega
  · rw [insert_weather_data, List.foldl_append]
    have hA : xs.foldl insertStep (db, 0, 0) =
        ((insert_weather_data db xs).1,
          (insert_weather_data db xs).2.1, (insert_weather_data db xs).2.2) := by
      rw [insert_weather_data]
    rw [hA, foldl_insertStep_shift ys]
    rw [insert_weather_data, insert_weather_data]

theorem foldl_insertStepErr_eq (batch : List (WeatherRow × MediumOutcome)) :
    ∀ acc, batch.foldl insertStepErr acc =
      ((batch.filter (fun a => a.2 = MediumOutcome.completes)).map Prod.fst).foldl
        insertStep acc := by
  induction batch with
  | nil => intro acc; rfl
  | cons a rest ih =>
    intro acc
    cases ho : a.2 with
    | completes =>
      have h1 : insertStepErr acc a = insertStep acc a.1 := by
        simp [insertStepErr, ho]
      rw [List.foldl_cons, h1, ih,
        List.filter_cons_of_pos (by simp [ho]), List.map_cons, List.foldl_cons]
    | raises =>
      have h1 : insertStepErr acc a = acc := by
        simp [insertStepErr, ho]
      rw [List.foldl_cons, h1, ih,
        List.filter_cons_of_neg (by simp [ho])]

/-- With a medium that completes every row, the explicit-outcome loop is
exactly `insert_weather_data`: the generic `except` arm is the only
difference between the two. -/
theorem insert_err_all_completes (db : Db) (batch : List WeatherRow) :
    insert_weather_data_err db (batch.map (fun r => (r, MediumOutcome.completes))) =
      insert_weather_data db batch := by
  rw [insert_weather_data_err, insert_weather_data, foldl_insertStepErr_eq]
  congr 1
  simp [List.filter_map, Function.comp_def]

/-- In an environment where the medium fails on some rows, the two counters
sum to the number of rows whose statement completed — the deficit from the
batch size is exactly the number of rows lost to the uncounted generic
`except` arm. -/
theorem insert_err_counters (db : Db) (batch : List (WeatherRow × MediumOutcome)) :
    (insert_weather_data_err db batch).2.1 + (insert_weather_data_err db batch).2.2 =
      (batch.filter (fun a => a.2 = MediumOutcome.completes)).length := by
  rw [insert_weather_data_err, foldl_insertStepErr_eq]
  have hs := (insert_counters_partition db
    ((batch.filter (fun a => a.2 = MediumOutcome.completes)).map Prod.fst) [] []).1
  rw [insert_weather_data] at hs
  simpa using hs

/-- C4: at a failing input — a batch whose single row's INSERT raises an
unexpected (non-IntegrityError) persistence error — the code's generic
`except Exception: continue` increments neither counter: the loop returns
(0, 0), the record is accounted for by neither counter, and the counters sum
to 0, not to the batch size 1, against the claim (and the spec's "it is
counted").  The non-abort half of the claim does hold in the code: a row
after the failing one is still processed and inserted. -/
theorem insert_uncounted_error :
    (insert_weather_data_err emptyDb [(sampleRow, .raises)]).2.1 = 0 ∧
    (insert_weather_data_err emptyDb [(sampleRow, .raises)]).2.2 = 0 ∧
    (insert_weather_data_err emptyDb [(sampleRow, .raises)]).2.1 +
        (insert_weather_data_err emptyDb [(sampleRow, .raises)]).2.2 ≠
      [(sampleRow, MediumOutcome.raises)].length ∧
    (insert_weather_data_err emptyDb
        [(sampleRow, .raises), (sampleRow, .completes)]).1.rows.length = 1 ∧
    (insert_weather_data_err emptyDb
        [(sampleRow, .raises), (sampleRow, .completes)]).2.1 = 1 := by
  decide

/-! ## C2 — idempotent insertion -/

/-- C2: inserting the same record (with its identity key present, as every
CleanedRecord's is) twice — across two runs or within one batch — grows the
store by at most one row; the second attempt is counted in the duplicates
counter (0 inserted, 1 skipped), never reported as an error. -/
theorem insert_idempotent (db : Db) (r : WeatherRow) (h : hasKeys r) :
    (insert_weather_data (insert_weather_data db [r]).1 [r]).1.rows.length ≤
      db.rows.length + 1 ∧
    (insert_weather_data (insert_weather_data db [r]).1 [r]).2.1 = 0 ∧
    (insert_weather_data (insert_weather_data db [r]).1 [r]).2.2 = 1 ∧
    (insert_weather_data db [r, r]).1.rows.length ≤ db.rows.length + 1 ∧
    1 ≤ (insert_weather_data db [r, r]).2.2 := by
  have hcne : ¬ r.city = none := by
    intro hnone
    unfold hasKeys at h
    rw [hnone] at h
    exact absurd h.1 (by simp)
  by_cases hany : db.rows.any (collides r) = true
  · have h1 : insertRow db r = (db, false) := by
      rw [insertRow, if_neg hcne, if_pos hany]
    have e1 : insert_weather_data db [r] = (db, 0, 1) := by
      rw [insert_weather_data, List.foldl_cons, List.foldl_nil]
      simp [insertStep, h1]
    have e2 : insert_weather_data db [r, r] = (db, 0, 2) := by
      rw [insert_weather_data, List.foldl_cons, List.foldl_cons, List.foldl_nil]
      simp [insertStep, h1]
    refine ⟨?_, ?_, ?_, ?_, ?_⟩ <;> simp only [e1, e2] <;> omega
  · have h1 : insertRow db r =
        (⟨db.rows ++ [⟨db.nextId, r⟩], db.nextId + 1⟩, true) := by
      rw [insertRow, if_neg hcne, if_neg hany]
    have hself : insertRow ⟨db.rows ++ [⟨db.nextId, r⟩], db.nextId + 1⟩ r =
        (⟨db.rows ++ [⟨db.nextId, r⟩], db.nextId + 1⟩, false) :=
      insertRow_skips_present _ r h ⟨⟨db.nextId, r⟩, by simp, rfl⟩
    have e1 : insert_weather_data db [r] =
        (⟨db.rows ++ [⟨db.nextId, r⟩], db.nextId + 1⟩, 1, 0) := by
      rw [insert_weather_data, List.foldl_cons, List.foldl_nil]
      simp [insertStep, h1]
    have e2 : insert_weather_data ⟨db.rows ++ [⟨db.nextId, r⟩], db.nextId + 1⟩ [r] =
        (⟨db.rows ++ [⟨db.nextId, r⟩], db.nextId + 1⟩, 0, 1) := by
      rw [insert_weather_data, List.foldl_cons, List.foldl_nil]
      simp [insertStep, hself]
    have e3 : insert_weather_data db [r, r] =
        (⟨db.rows ++ [⟨db.nextId, r⟩], db.nextId + 1⟩, 1, 1) := by
      rw [insert_weather_data, List.foldl_cons, List.foldl_cons, List.foldl_nil]
      simp [insertStep, h1, hself]
    refine ⟨?_, ?_, ?_, ?_, ?_⟩ <;> simp only [e1, e2, e3] <;>
      simp [List.length_append]

/-- C2 (witness): the theorem applied at the empty store and the sample row
with all key fields present. -/
theorem insert_idempotent_witness :
    (insert_weather_data (insert_weather_data emptyDb [sampleRow]).1 [sampleRow]).1.rows.length ≤
      emptyDb.rows.length + 1 ∧
    (insert_weather_data (insert_weather_data emptyDb [sampleRow]).1 [sampleRow]).2.1 = 0 ∧
    (insert_weather_data (insert_weather_data emptyDb [sampleRow]).1 [sampleRow]).2.2 = 1 ∧
    (insert_weather_data emptyDb [sampleRow, sampleRow]).1.rows.length ≤
      emptyDb.rows.length + 1 ∧
    1 ≤ (insert_weather_data emptyDb [sampleRow, sampleRow]).2.2 :=
  insert_idempotent emptyDb sampleRow (by decide)

/-! ## C1 — key uniqueness -/

theorem storeInv_insertRow (db : Db) (r : WeatherRow) (h : StoreInv db) :
    StoreInv (insertRow db r).1 := by
  unfold StoreInv at h ⊢
  rw [insertRow]
  by_cases h0 : r.city = none
  · rw [if_pos h0]
    exact h
  · rw [if_neg h0]
    by_cases h1 : db.rows.any (collides r) = true
    · rw [if_pos h1]
      exact h
    · rw [if_neg h1]
      constructor
      · intro s hs
        rcases List.mem_append.mp hs with hold | hnew
        · exact h.1 s hold
        · rcases List.mem_singleton.mp hnew with rfl
          simpa [Option.isSome_iff_ne_none] using h0
      · rw [KeysUnique, List.pairwise_append]
        refine ⟨h.2, List.pairwise_singleton _ _, ?_⟩
        intro s hs t ht hkeys hclash
        rcases List.mem_singleton.mp ht with rfl
        apply h1
        refine List.any_eq_true.mpr ⟨s, hs, ?_⟩
        rw [collides]
        have hc : sqlEq r.city s.row.city = true :=
          sqlEq_of_eq _ _ hclash.1.symm (h.1 s hs)
        have htm : sqlEq r.time s.row.time = true :=
          sqlEq_of_eq _ _ hclash.2.1.symm hkeys.1
        have hsa : sqlEq r.scraped_at s.row.scraped_at = true :=
          sqlEq_of_eq _ _ hclash.2.2.symm hkeys.2
        simp [hc, htm, hsa]

theorem storeInv_foldl (batch : List WeatherRow) :
    ∀ (acc : Db × Nat × Nat), StoreInv acc.1 →
      StoreInv (batch.foldl insertStep acc).1 := by
  induction batch with
  | nil => intro acc h; exact h
  | cons r rs ih =>
    intro acc h
    rw [List.foldl_cons]
    apply ih
    rw [insertStep_fst]
    exact storeInv_insertRow acc.1 r h

theorem storeInv_reachable (db : Db) (h : ReachableDb db) : StoreInv db := by
  induction h with
  | empty =>
    unfold StoreInv KeysUnique emptyDb
    exact ⟨fun s hs => by simp at hs, List.Pairwise.nil⟩
  | insert db batch _ ih =>
    exact storeInv_foldl batch (db, 0, 0) ih

/-- C1 (counterexample): the claim that (city, time, scrape timestamp) is
unique across all persisted rows is false: SQLite's `UNIQUE` treats NULLs as
distinct, so inserting a batch of two copies of a row whose `time` is NULL
persists both — a reachable state with two rows agreeing on all three key
fields. -/
theorem store_null_key_duplicate :
    ReachableDb (insert_weather_data emptyDb [nullTimeRow, nullTimeRow]).1 ∧
    (insert_weather_data emptyDb [nullTimeRow, nullTimeRow]).1.rows.map
        (fun s => s.row.city) =
      [some "Washington, DC".data, some "Washington, DC".data] ∧
    (insert_weather_data emptyDb [nullTimeRow, nullTimeRow]).1.rows.map
        (fun s => s.row.time) = [none, none] ∧
    (insert_weather_data emptyDb [nullTimeRow, nullTimeRow]).1.rows.map
        (fun s => s.row.scraped_at) =
      [some "2024-01-01T08:00:00".data, some "2024-01-01T08:00:00".data] ∧
    (insert_weather_data emptyDb [nullTimeRow, nullTimeRow]).1.rows.length = 2 :=
  ⟨ReachableDb.insert emptyDb [nullTimeRow, nullTimeRow] ReachableDb.empty,
    by decide, by decide, by decide, by decide⟩

/-- C1 (amended): in every store state reachable by the insert operation, the
tuple (city, time, scrape timestamp) is unique across all StoredRecords whose
time and scrape-timestamp fields are present (non-NULL); rows with a NULL key
field escape the SQLite uniqueness constraint, which treats NULLs as
distinct. -/
theorem reachable_keys_unique (db : Db) (h : ReachableDb db) : KeysUnique db :=
  (storeInv_reachable db h).2

/-- C1 (witness): the amended theorem applied to the state reached by
inserting the sample batch into a fresh store. -/
theorem reachable_keys_unique_witness :
    KeysUnique (insert_weather_data emptyDb [sampleRow, nullTimeRow]).1 :=
  reachable_keys_unique _
    (ReachableDb.insert emptyDb [sampleRow, nullTimeRow] ReachableDb.empty)

/-! ## C9 — the same-day guard is all-or-nothing -/

/-- C9: when the existing raw store is readable and its timestamps parse, a
run whose `today` matches the calendar date of any already-recorded row skips
the entire new batch (the file is left exactly as it was), and otherwise the
whole batch is appended; with no existing file the whole batch becomes the
new file. -/
theorem same_day_guard (rows newB : List ScrapeRow) (today : Nat)
    (hwf : ∀ r ∈ rows, r.scrapedAt ≠ some none) :
    ((∃ r ∈ rows, r.scrapedAt = some (some today)) →
      scrapeMainSave (.table true rows) newB today = .ok (.table true rows)) ∧
    (¬ (∃ r ∈ rows, r.scrapedAt = some (some today)) →
      scrapeMainSave (.table true rows) newB today =
        .ok (.table true (rows ++ newB))) ∧
    scrapeMainSave .absent newB today = .ok (.table true newB) := by
  by_cases hrows : rows = []
  · subst hrows
    refine ⟨?_, ?_, ?_⟩
    · rintro ⟨r, hr, _⟩
      cases hr
    · intro _
      simp [scrapeMainSave, check_for_duplicates, save_to_csv]
    · simp [scrapeMainSave, check_for_duplicates, save_to_csv]
  · have hlen : rows.length > 0 := List.length_pos.mpr hrows
    have hmal : (rows.any fun r => decide (r.scrapedAt = some none)) = false := by
      simp only [List.any_eq_false, decide_eq_true_eq]
      exact hwf
    have hch : check_for_duplicates (.table true rows) today =
        rows.any (fun r => decide (r.scrapedAt = some (some today))) := by
      simp [check_for_duplicates, hlen, hmal]
    refine ⟨?_, ?_, ?_⟩
    · intro hex
      have hany : (rows.any fun r => decide (r.scrapedAt = some (some today))) = true := by
        simp only [List.any_eq_true, decide_eq_true_eq]
        exact hex
      simp [scrapeMainSave, hch, hany]
    · intro hnex
      have hany : (rows.any fun r => decide (r.scrapedAt = some (some today))) = false := by
        simp only [List.any_eq_false, decide_eq_true_eq]
        intro x hx hxx
        exact hnex ⟨x, hx, hxx⟩
      simp [scrapeMainSave, hch, hany, save_to_csv]
    · simp [scrapeMainSave, check_for_duplicates, save_to_csv]

/-- C9 (witness): the theorem applied to a store holding a row scraped on day
7 and a fresh batch on the same day 7: the file is left unchanged. -/
theorem same_day_guard_witness :
    scrapeMainSave (.table true [sampleScrape]) [sampleScrape] 7 =
      .ok (.table true [sampleScrape]) :=
  (same_day_guard [sampleScrape] [sampleScrape] 7 (by decide)).1
    ⟨sampleScrape, by simp, rfl⟩

/-! ## C10 — the guard fails open, but an unreadable file still blocks the save -/

/-- C10 (counterexample): the claim "an unreadable or malformed existing raw
file never blocks a new scrape from being persisted" is false for an
unreadable file: the duplicate guard does catch the read failure and reports
no duplicates, but `save_to_csv` then re-reads the file without any guard, the
same failure propagates, and the batch is not persisted. -/
theorem guard_fail_open_unreadable_blocks :
    check_for_duplicates .unreadable 7 = false ∧
    scrapeMainSave .unreadable [sampleScrape] 7 = .error () := by
  exact ⟨rfl, rfl⟩

/-- C10 (amended): the same-day guard fails open — any exception while
reading or interpreting the existing raw file (unreadable file, missing
`Scraped_At` column, malformed timestamp) makes `check_for_duplicates` report
no duplicates — and for the parse-stage failures the new batch is then saved
(appended) anyway; but when the file itself cannot be read, the unguarded
re-read in the save step raises the same error and the batch is not
persisted. -/
theorem guard_fails_open (rows batch : List ScrapeRow) (today : Nat) :
    (check_for_duplicates .unreadable today = false) ∧
    (check_for_duplicates (.table false rows) today = false) ∧
    ((∃ r ∈ rows, r.scrapedAt = some none) →
      check_for_duplicates (.table true rows) today = false ∧
      scrapeMainSave (.table true rows) batch today =
        .ok (.table true (rows ++ batch))) ∧
    (scrapeMainSave (.table false rows) batch today =
      .ok (.table true (rows.map (fun r => { r with scrapedAt := none }) ++ batch))) ∧
    (scrapeMainSave .unreadable batch today = .error ()) := by
  have hnc : check_for_duplicates (.table false rows) today = false := by
    simp [check_for_duplicates]
  refine ⟨rfl, hnc, ?_, ?_, rfl⟩
  · intro hex
    have hane : (rows.any fun r => decide (r.scrapedAt = some none)) = true := by
      simp only [List.any_eq_true, decide_eq_true_eq]
      exact hex
    obtain ⟨r0, hr0, _⟩ := hex
    have hlen : rows.length > 0 := List.length_pos.mpr (List.ne_nil_of_mem hr0)
    have hch : check_for_duplicates (.table true rows) today = false := by
      simp [check_for_duplicates, hlen, hane]
    exact ⟨hch, by simp [scrapeMainSave, hch, save_to_csv]⟩
  · simp [scrapeMainSave, hnc, save_to_csv]

/-- C10 (witness): the amended theorem applied to a store whose single row
has an unparseable timestamp: the guard reports no duplicates and the batch
is appended. -/
theorem guard_fails_open_witness :
    check_for_duplicates (.table true [malformedScrape]) 7 = false ∧
    scrapeMainSave (.table true [malformedScrape]) [sampleScrape] 7 =
      .ok (.table true ([malformedScrape] ++ [sampleScrape])) :=
  (guard_fails_open [malformedScrape] [sampleScrape] 7).2.2.1
    ⟨malformedScrape, by simp, rfl⟩

end Weather
